import Mathlib

/-!
Formal model of the `GameRoom` simulation of arena-clash-server
(`src/GameRoom.ts`, `src/types.ts`), shallow-embedded in Lean.

Modelling conventions:
* JS numbers that only ever undergo rational arithmetic (health, stamina,
  vertical position/velocity, client input axes, timestep `dt`) are `ℚ`;
* quantities flowing through `Math.sqrt` / trigonometry (planar position,
  rotation, dodge direction) are `ℝ`;
* millisecond timestamps (`Date.now()` values and durations) are `ℤ`;
* `Math.round` is Mathlib's `round` (round half toward +∞, as in JS);
* the mutable per-player record `ServerPlayer` with its nested replicated
  `PlayerState` mirrors the interfaces in the source, and each handler
  (`handleMessage`, `processMovement`, `tick` per player, `checkAttackHits`,
  `respawnPlayer`, `broadcastState`) becomes a pure function from the
  pre-state (plus the current time) to the post-state together with the
  list of messages the source would broadcast.
-/

open Real
open scoped Classical

noncomputable section

/-! ### Constants (`GameRoom.ts` lines 10-55) -/

def ARENA_RADIUS : ℝ := 30

def PLAYER_SPEED : ℝ := 8
def GRAVITY : ℚ := 16
def JUMP_VELOCITY : ℚ := 8.5

def DODGE_SPEED : ℝ := 18
def DODGE_DURATION : ℤ := 280
def DODGE_COOLDOWN : ℤ := 800
def DODGE_STAMINA_COST : ℚ := 25
def DODGE_IFRAME_DURATION : ℤ := 200

def ATTACK_DAMAGE : ℚ := 22
def BLOCK_DAMAGE_REDUCTION : ℚ := 0.75
def ATTACK_RANGE : ℝ := 2.8
def ATTACK_ARC : ℝ := Real.pi / 2

/-- One entry of the `COMBO_STEPS` array: animation duration (ms),
hit-frame offset (ms) and damage multiplier. -/
structure ComboStep where
  duration : ℤ
  hitTime : ℤ
  dmg : ℚ

def COMBO_STEPS : List ComboStep :=
  [⟨480, 170, 1⟩, ⟨500, 190, 1.15⟩, ⟨620, 240, 1.35⟩]

/-- One entry of `COMBO_CHAIN_WINDOW`; the source field `end` is a Lean
keyword and is rendered `stop`. -/
structure ChainWindow where
  start : ℤ
  stop : ℤ

def COMBO_CHAIN_WINDOW : List ChainWindow := [⟨150, 400⟩, ⟨170, 440⟩]

def COMBO_COOLDOWN : ℤ := 600
def ATTACK_STAMINA_COST : ℚ := 12
def BLOCK_STAMINA_DRAIN : ℚ := 8

def MAX_STAMINA : ℚ := 100
def STAMINA_REGEN_RATE : ℚ := 18
def STAMINA_REGEN_DELAY : ℤ := 800

def MAX_HEALTH : ℚ := 100
def RESPAWN_TIME : ℤ := 3000

def TICK_RATE : ℕ := 30
def MAX_INPUT_RATE : ℕ := 66

/-- The per-tick timestep `dt = 1 / TICK_RATE` used inside `tick`. -/
def dtTick : ℚ := 1 / 30

/-! ### Data model (`types.ts`, `GameRoom.ts` interface `ServerPlayer`) -/

/-- The `action` union type of `PlayerState` (the bare name `Action` is
taken by Mathlib). -/
inductive PlayerAction where
  | idle
  | attacking
  | blocking
  | dodging
deriving DecidableEq

/-- `PlayerState` (types.ts lines 2-21), the state replicated to clients. -/
structure PlayerState where
  id : String
  name : String
  x : ℝ
  y : ℚ
  z : ℝ
  rotation : ℝ
  health : ℚ
  maxHealth : ℚ
  stamina : ℚ
  maxStamina : ℚ
  action : PlayerAction
  attackTime : ℤ
  attackIndex : ℕ
  isDead : Bool
  kills : ℕ
  deaths : ℕ
  color : String
  lastSeq : ℕ

/-- The `input` field of `ServerPlayer`. -/
structure InputState where
  forward : ℚ
  right : ℚ
  rotation : ℝ
  dt : ℚ

/-- Server-only per-connection record (`ServerPlayer`, GameRoom.ts lines
64-85).  The respawn timer handle is modelled as the absolute time at
which the scheduled `respawnPlayer` fires (`none` = no pending timer). -/
structure ServerPlayer where
  state : PlayerState
  input : InputState
  attackHitChecked : Bool
  respawnTimer : Option ℤ
  lastInputTime : ℤ
  yVelocity : ℚ
  lastStaminaUseTime : ℤ
  comboCooldownUntil : ℤ
  dodgeStartTime : ℤ
  dodgeDir : ℝ × ℝ
  lastDodgeTime : ℤ
  inputCount : ℕ
  inputCountResetTime : ℤ
  lastSeq : ℕ

/-- Inbound client messages (types.ts lines 81-102), as a closed sum. -/
inductive ClientMessage where
  | move (seq : ℕ) (forward right : ℚ) (rotation : ℝ) (dt : ℚ)
  | attack
  | blockStart
  | blockEnd
  | jump
  | dodge
  | setName (name : String)

/-- Outbound broadcasts relevant to the modelled handlers (`hit`, `kill`,
`respawn`, `chat`). -/
inductive ServerEvent where
  | hit (attackerId targetId : String) (damage : ℤ) (targetHealth : ℚ)
      (blocked : Bool) (kbX kbZ : ℝ) (kbForce : ℚ)
  | kill (killerId killerName targetId targetName : String)
  | respawnEv (id : String) (x z : ℝ)
  | chat (text : String)

/-- The target id carried by a `kill` event, if any. -/
def ServerEvent.killTarget : ServerEvent → Option String
  | .kill _ _ tid _ => some tid
  | _ => none

/-- Damage field of the leading `hit` event of an event list, if any. -/
def hitDamageOf : List ServerEvent → Option ℤ
  | .hit _ _ d _ _ _ _ _ :: _ => some d
  | _ => none

/-- `targetHealth` field of the leading `hit` event, if any. -/
def hitHealthOf : List ServerEvent → Option ℚ
  | .hit _ _ _ h _ _ _ _ :: _ => some h
  | _ => none

/-- `blocked` flag of the leading `hit` event, if any. -/
def hitBlockedOf : List ServerEvent → Option Bool
  | .hit _ _ _ _ b _ _ _ :: _ => some b
  | _ => none

/-! ### Geometry helpers -/

/-- Planar distance from the arena origin, `Math.sqrt(x*x + z*z)`. -/
def planarDist (x z : ℝ) : ℝ := Real.sqrt (x * x + z * z)

/-- The arena soft wall applied after every displacement (GameRoom.ts
lines 388-394, 440-445, 542-547: identical inline code at each site):
if the distance from the origin exceeds `ARENA_RADIUS - 1`, rescale the
position onto that circle. -/
def clampArena (x z : ℝ) : ℝ × ℝ :=
  let dist := planarDist x z
  if dist > ARENA_RADIUS - 1 then
    (x * ((ARENA_RADIUS - 1) / dist), z * ((ARENA_RADIUS - 1) / dist))
  else (x, z)

/-- JS `Math.atan2 y x` (principal value in `[-π, π]`). -/
def atan2 (y x : ℝ) : ℝ :=
  if 0 < x then Real.arctan (y / x)
  else if x < 0 then
    (if 0 ≤ y then Real.arctan (y / x) + π else Real.arctan (y / x) - π)
  else
    (if 0 < y then π / 2 else if y < 0 then -(π / 2) else 0)

/-- First normalization loop `while (a > π) a -= 2π` (GameRoom.ts lines
502, 517).  For input `θ` the loop body runs exactly
`max 0 ⌈(θ - π) / (2π)⌉` times — the least `n : ℕ` with `θ - 2πn ≤ π` —
so the loop is embedded by its closed form. -/
def wrapDown (θ : ℝ) : ℝ := θ - 2 * π * (max 0 ⌈(θ - π) / (2 * π)⌉ : ℤ)

/-- Second normalization loop `while (a < -π) a += 2π` (GameRoom.ts lines
503, 518), embedded by its closed form exactly as `wrapDown`. -/
def wrapUp (θ : ℝ) : ℝ := θ + 2 * π * (max 0 ⌈(-π - θ) / (2 * π)⌉ : ℤ)

/-- The angle-normalization idiom of the source: run both loops. -/
def normAngle (θ : ℝ) : ℝ := wrapUp (wrapDown θ)

theorem wrapDown_of_le {θ : ℝ} (h : θ ≤ π) : wrapDown θ = θ := by
  have h2 : (0:ℝ) < 2 * π := by positivity
  have hq : (θ - π) / (2 * π) ≤ 0 :=
    div_nonpos_iff.mpr (Or.inr ⟨by linarith, h2.le⟩)
  have hc : ⌈(θ - π) / (2 * π)⌉ ≤ 0 :=
    Int.ceil_le.mpr (by exact_mod_cast hq)
  unfold wrapDown
  rw [max_eq_left hc]
  push_cast
  ring

theorem wrapUp_of_le {θ : ℝ} (h : -π ≤ θ) : wrapUp θ = θ := by
  have h2 : (0:ℝ) < 2 * π := by positivity
  have hq : (-π - θ) / (2 * π) ≤ 0 :=
    div_nonpos_iff.mpr (Or.inr ⟨by linarith, h2.le⟩)
  have hc : ⌈(-π - θ) / (2 * π)⌉ ≤ 0 :=
    Int.ceil_le.mpr (by exact_mod_cast hq)
  unfold wrapUp
  rw [max_eq_left hc]
  push_cast
  ring

theorem normAngle_of_mem {θ : ℝ} (h1 : -π ≤ θ) (h2 : θ ≤ π) :
    normAngle θ = θ := by
  unfold normAngle
  rw [wrapDown_of_le h2, wrapUp_of_le h1]

theorem normAngle_zero : normAngle 0 = 0 :=
  normAngle_of_mem (by linarith [Real.pi_pos]) Real.pi_pos.le

theorem atan2_zero_of_pos {x : ℝ} (h : 0 < x) : atan2 0 x = 0 := by
  unfold atan2
  rw [if_pos h, zero_div, Real.arctan_zero]

theorem atan2_zero_of_neg {x : ℝ} (h : x < 0) : atan2 0 x = π := by
  unfold atan2
  rw [if_neg (by linarith), if_pos h, if_pos le_rfl, zero_div,
    Real.arctan_zero, zero_add]

/-- After the soft wall, the distance from the origin is at most
`ARENA_RADIUS - 1`. -/
theorem clampArena_dist (x z : ℝ) :
    planarDist (clampArena x z).1 (clampArena x z).2 ≤ ARENA_RADIUS - 1 := by
  unfold clampArena
  set d := planarDist x z with hd
  by_cases h : d > ARENA_RADIUS - 1
  · rw [if_pos h]
    have hr : (0:ℝ) < ARENA_RADIUS - 1 := by norm_num [ARENA_RADIUS]
    have hdpos : 0 < d := lt_trans hr h
    have hs : 0 ≤ (ARENA_RADIUS - 1) / d := le_of_lt (div_pos hr hdpos)
    have : planarDist (x * ((ARENA_RADIUS - 1) / d))
        (z * ((ARENA_RADIUS - 1) / d)) = ((ARENA_RADIUS - 1) / d) * d := by
      unfold planarDist
      have hexp : x * ((ARENA_RADIUS - 1) / d) * (x * ((ARENA_RADIUS - 1) / d))
          + z * ((ARENA_RADIUS - 1) / d) * (z * ((ARENA_RADIUS - 1) / d))
          = ((ARENA_RADIUS - 1) / d) ^ 2 * (x * x + z * z) := by ring
      rw [hexp, Real.sqrt_mul (by positivity), Real.sqrt_sq hs]
      rw [hd]; unfold planarDist
      rfl
    rw [this, div_mul_cancel₀ _ (ne_of_gt hdpos)]
  · rw [if_neg h]
    exact le_of_not_lt h

/-! ### Hit detection (`checkAttackHits`, GameRoom.ts lines 478-585) -/

/-- The conjunction of the loop guards of `checkAttackHits`: a hit is
registered against `t` exactly when none of the four `continue`s fires
(self/dead target, dodge i-frames, range, arc). -/
def registersHit (a : PlayerState) (t : ServerPlayer) (now : ℤ) : Prop :=
  ¬(t.state.id = a.id ∨ t.state.isDead = true) ∧
  ¬(t.state.action = .dodging ∧
      now - t.dodgeStartTime < DODGE_IFRAME_DURATION) ∧
  ¬(planarDist (t.state.x - a.x) (t.state.z - a.z) > ATTACK_RANGE) ∧
  ¬(|normAngle (atan2 (-(t.state.x - a.x)) (-(t.state.z - a.z))
      - a.rotation)| > ATTACK_ARC / 2)

/-- Guard of the block-mitigation branch (lines 511-520): the target is
blocking and the target→attacker angle, normalized relative to the
target's facing, is strictly within `±π/2`. -/
def blockCondition (a : PlayerState) (t : ServerPlayer) : Prop :=
  t.state.action = .blocking ∧
  |normAngle (atan2 (-(a.x - t.state.x)) (-(a.z - t.state.z))
      - t.state.rotation)| < π / 2

/-- The damage finally subtracted from the target's health: the source
initializes `damage = Math.round(ATTACK_DAMAGE * damageScale)` and, in the
block branch, overwrites it with
`Math.round(damage * (1 - BLOCK_DAMAGE_REDUCTION))`. -/
def appliedDamage (a : PlayerState) (t : ServerPlayer) (damageScale : ℚ) : ℤ :=
  if blockCondition a t then
    round (((round (ATTACK_DAMAGE * damageScale) : ℤ) : ℚ)
      * (1 - BLOCK_DAMAGE_REDUCTION))
  else round (ATTACK_DAMAGE * damageScale)

/-- Body of the `checkAttackHits` loop once all guards passed (lines
507-583): block mitigation, damage application, knockback with arena
clamp, the `hit` broadcast, and the death branch (`kill` broadcast plus
respawn scheduling).  The attacker's own `kills` counter increment is a
mutation of the attacker and is outside this per-target function. -/
def applyHit (a : PlayerState) (t : ServerPlayer) (damageScale : ℚ)
    (now : ℤ) : ServerPlayer × List ServerEvent :=
  let dx := t.state.x - a.x
  let dz := t.state.z - a.z
  let dist := planarDist dx dz
  let damage := appliedDamage a t damageScale
  let blocked : Bool := if blockCondition a t then true else false
  let stamina1 : ℚ :=
    if blockCondition a t then
      (if t.state.stamina - 10 < 0 then 0 else t.state.stamina - 10)
    else t.state.stamina
  let lastUse1 := if blockCondition a t then now else t.lastStaminaUseTime
  let health1 := t.state.health - (damage : ℚ)
  let kbDist := if dist > 0.01 then dist else 1
  let kbX := dx / kbDist
  let kbZ := dz / kbDist
  let kbForce : ℚ :=
    if blockCondition a t then 0.3 else 0.6 + damageScale * 0.4
  let pos := clampArena (t.state.x + kbX * (kbForce : ℝ) * 0.5)
    (t.state.z + kbZ * (kbForce : ℝ) * 0.5)
  let hitEv := ServerEvent.hit a.id t.state.id damage health1 blocked
    kbX kbZ kbForce
  if health1 ≤ 0 then
    let deadState :=
      { t.state with
        x := pos.1
        z := pos.2
        stamina := stamina1
        health := 0
        isDead := true
        action := .idle
        deaths := t.state.deaths + 1 }
    ({ t with
        state := deadState
        lastStaminaUseTime := lastUse1
        respawnTimer := some (now + RESPAWN_TIME) },
     [hitEv, ServerEvent.kill a.id a.name t.state.id t.state.name])
  else
    let hurtState :=
      { t.state with
        x := pos.1
        z := pos.2
        stamina := stamina1
        health := health1 }
    ({ t with state := hurtState, lastStaminaUseTime := lastUse1 }, [hitEv])

/-- One iteration of the `checkAttackHits` loop for target `t`. -/
def processTarget (a : PlayerState) (t : ServerPlayer) (damageScale : ℚ)
    (now : ℤ) : ServerPlayer × List ServerEvent :=
  if registersHit a t now then applyHit a t damageScale now else (t, [])

/-- The whole `checkAttackHits` pass: every player of the room is
visited once, in order; broadcasts are emitted in iteration order. -/
def checkAttackHits (a : PlayerState) (targets : List ServerPlayer)
    (damageScale : ℚ) (now : ℤ) : List ServerPlayer × List ServerEvent :=
  (targets.map fun t => (processTarget a t damageScale now).1,
   targets.flatMap fun t => (processTarget a t damageScale now).2)

/-! ### Movement (`processMovement`, lines 358-396) -/

def processMovement (p : ServerPlayer) : ServerPlayer :=
  if p.state.isDead = true then p
  else
    let q := { p with state := { p.state with rotation := p.input.rotation } }
    if q.state.action = .attacking then q
    else if q.state.action = .dodging then q
    else if q.input.forward ≠ 0 ∨ q.input.right ≠ 0 then
      let sinR := Real.sin q.input.rotation
      let cosR := Real.cos q.input.rotation
      let dx0 := (q.input.right : ℝ) * cosR - (q.input.forward : ℝ) * sinR
      let dz0 := (q.input.right : ℝ) * sinR - (q.input.forward : ℝ) * cosR
      let len := Real.sqrt (dx0 * dx0 + dz0 * dz0)
      let dx := if len > 1 then dx0 / len else dx0
      let dz := if len > 1 then dz0 / len else dz0
      let speedMul : ℚ := if q.state.action = .blocking then 0.55 else 1
      let pos := clampArena
        (q.state.x + dx * PLAYER_SPEED * (speedMul : ℝ) * (q.input.dt : ℝ))
        (q.state.z + dz * PLAYER_SPEED * (speedMul : ℝ) * (q.input.dt : ℝ))
      { q with state := { q.state with x := pos.1, z := pos.2 } }
    else q

/-! ### Message handling (`handleMessage`, lines 218-356) -/

/-- Rate-limiter window reset (lines 225-228): one second after the
window started, zero the counter and restart the window. -/
def windowReset (p : ServerPlayer) (now : ℤ) : ServerPlayer :=
  if 1000 ≤ now - p.inputCountResetTime then
    { p with inputCount := 0, inputCountResetTime := now }
  else p

/-- The session state seen by the message switch once the rate limiter
accepted the message: counter bumped, `lastInputTime` stamped. -/
def acceptedPlayer (p : ServerPlayer) (now : ℤ) : ServerPlayer :=
  { windowReset p now with
    inputCount := (windowReset p now).inputCount + 1
    lastInputTime := now }

/-- The `switch (msg.type)` body of `handleMessage` (lines 234-355),
applied to the already-bookkept session `p2`. -/
def applyClientMessage (p2 : ServerPlayer) (msg : ClientMessage)
    (now : ℤ) : ServerPlayer × List ServerEvent :=
  match msg with
    | .move seq forward right rotation dt =>
      let f := max (-1) (min 1 forward)
      let r := max (-1) (min 1 right)
      -- `m.dt || 1 / TICK_RATE`: a falsy (zero) client dt falls back to
      -- the tick timestep before clamping to [0.001, 0.1].
      let d := max 0.001 (min 0.1 (if dt = 0 then dtTick else dt))
      let p3 := { p2 with
        input := ⟨f, r, rotation, d⟩,
        lastSeq := seq,
        state := { p2.state with lastSeq := seq } }
      (processMovement p3, [])
    | .attack =>
      if p2.state.isDead = true then (p2, [])
      else if p2.state.action = .dodging then (p2, [])
      else if p2.state.stamina < ATTACK_STAMINA_COST then (p2, [])
      else if p2.state.action = .idle then
        if now < p2.comboCooldownUntil then (p2, [])
        else
          ({ p2 with
              state := { p2.state with
                stamina := p2.state.stamina - ATTACK_STAMINA_COST,
                action := .attacking, attackTime := now, attackIndex := 1 },
              lastStaminaUseTime := now, attackHitChecked := false }, [])
      else if p2.state.action = .attacking then
        let step := p2.state.attackIndex
        if 1 ≤ step ∧ step < 3 then
          let elapsed := now - p2.state.attackTime
          let w := COMBO_CHAIN_WINDOW.getD (step - 1) ⟨150, 400⟩
          if w.start ≤ elapsed ∧ elapsed ≤ w.stop then
            if p2.state.stamina < ATTACK_STAMINA_COST then (p2, [])
            else
              ({ p2 with
                  state := { p2.state with
                    stamina := p2.state.stamina - ATTACK_STAMINA_COST,
                    attackIndex := step + 1, attackTime := now },
                  lastStaminaUseTime := now, attackHitChecked := false }, [])
          else (p2, [])
        else (p2, [])
      else (p2, [])
    | .blockStart =>
      if p2.state.action = .idle ∧ p2.state.isDead = false ∧
          5 < p2.state.stamina then
        ({ p2 with state := { p2.state with action := .blocking } }, [])
      else (p2, [])
    | .blockEnd =>
      if p2.state.action = .blocking then
        ({ p2 with state := { p2.state with action := .idle } }, [])
      else (p2, [])
    | .jump =>
      if p2.state.isDead = false ∧ p2.state.y ≤ 0.001 ∧
          p2.state.action ≠ .dodging then
        let jState := { p2.state with y := (0.001 : ℚ) }
        ({ p2 with yVelocity := JUMP_VELOCITY, state := jState }, [])
      else (p2, [])
    | .dodge =>
      if p2.state.isDead = true then (p2, [])
      else if p2.state.action = .attacking ∨ p2.state.action = .dodging then
        (p2, [])
      else if p2.state.stamina < DODGE_STAMINA_COST then (p2, [])
      else if now - p2.lastDodgeTime < DODGE_COOLDOWN then (p2, [])
      else
        let sinR := Real.sin p2.input.rotation
        let cosR := Real.cos p2.input.rotation
        let dx0 := (p2.input.right : ℝ) * cosR - (p2.input.forward : ℝ) * sinR
        let dz0 := (p2.input.right : ℝ) * sinR - (p2.input.forward : ℝ) * cosR
        let len := Real.sqrt (dx0 * dx0 + dz0 * dz0)
        let dir := if len > 0.1 then (dx0 / len, dz0 / len) else (sinR, cosR)
        let dState :=
          { p2.state with
            action := PlayerAction.dodging
            stamina := p2.state.stamina - DODGE_STAMINA_COST }
        ({ p2 with
            state := dState
            lastStaminaUseTime := now
            dodgeStartTime := now
            lastDodgeTime := now
            dodgeDir := dir }, [])
    | .setName name =>
      let nm := (name.trim).take 20
      if 0 < nm.length then
        ({ p2 with state := { p2.state with name := nm } },
         [ServerEvent.chat (p2.state.name ++ " is now known as " ++ nm)])
      else (p2, [])

/-- `handleMessage` (lines 218-356): rate limit, then dispatch. -/
def handleMessage (p : ServerPlayer) (msg : ClientMessage) (now : ℤ) :
    ServerPlayer × List ServerEvent :=
  if MAX_INPUT_RATE < (windowReset p now).inputCount + 1 then
    ({ windowReset p now with
        inputCount := (windowReset p now).inputCount + 1 }, [])
  else applyClientMessage (acceptedPlayer p now) msg now

/-! ### Per-player simulation tick (`tick`, lines 398-476)

The loop body of `tick` for one player.  The call
`this.checkAttackHits(player, step.dmg)` mutates only the *other*
players (modelled by `processTarget` above) and, on the attacker,
nothing beyond the `attackHitChecked` flag already set in `tick`
itself, so the attacker-side tick is a pure function of `p`. -/

/-- Attack-timing block of the tick loop body (lines 407-427).  The
`checkAttackHits` call mutates only the other players (see
`processTarget`); on the attacker the tick itself sets
`attackHitChecked` before the call. -/
def tickAttack (p : ServerPlayer) (now : ℤ) : ServerPlayer :=
  if p.state.action = .attacking then
    let elapsed := now - p.state.attackTime
    let stepIndex := max 1 (min 3 p.state.attackIndex)
    let step := COMBO_STEPS.getD (stepIndex - 1) ⟨480, 170, 1⟩
    let pa :=
      if step.hitTime ≤ elapsed ∧ p.attackHitChecked = false then
        { p with attackHitChecked := true }
      else p
    if step.duration ≤ elapsed then
      { pa with
          state := { pa.state with action := .idle, attackIndex := 0 },
          comboCooldownUntil :=
            if 3 ≤ pa.state.attackIndex then now + COMBO_COOLDOWN
            else pa.comboCooldownUntil }
    else pa
  else p

/-- Dodge-movement block of the tick loop body (lines 430-449). -/
def tickDodge (p : ServerPlayer) (now : ℤ) : ServerPlayer :=
  if p.state.action = .dodging then
    let elapsed := now - p.dodgeStartTime
    if elapsed < DODGE_DURATION then
      let progress : ℚ := (elapsed : ℚ) / ((DODGE_DURATION : ℤ) : ℚ)
      let speedFactor : ℚ := 1 - progress * progress
      let pos := clampArena
        (p.state.x + p.dodgeDir.1 * DODGE_SPEED * (speedFactor : ℝ)
          * (dtTick : ℝ))
        (p.state.z + p.dodgeDir.2 * DODGE_SPEED * (speedFactor : ℝ)
          * (dtTick : ℝ))
      { p with state := { p.state with x := pos.1, z := pos.2 } }
    else { p with state := { p.state with action := .idle } }
  else p

/-- Block-stamina-drain block of the tick loop body (lines 452-459). -/
def tickBlock (p : ServerPlayer) (now : ℤ) : ServerPlayer :=
  if p.state.action = .blocking then
    let st := p.state.stamina - BLOCK_STAMINA_DRAIN * dtTick
    if st ≤ 0 then
      let bState :=
        { p.state with stamina := (0 : ℚ), action := PlayerAction.idle }
      { p with state := bState, lastStaminaUseTime := now }
    else
      let bState := { p.state with stamina := st }
      { p with state := bState, lastStaminaUseTime := now }
  else p

/-- Stamina-regeneration block of the tick loop body (lines 462-464). -/
def tickRegen (p : ServerPlayer) (now : ℤ) : ServerPlayer :=
  if p.state.action ≠ .blocking ∧
      STAMINA_REGEN_DELAY ≤ now - p.lastStaminaUseTime then
    { p with state := { p.state with
        stamina := min MAX_STAMINA
          (p.state.stamina + STAMINA_REGEN_RATE * dtTick) } }
  else p

/-- Vertical-motion block of the tick loop body (lines 467-474). -/
def tickVertical (p : ServerPlayer) : ServerPlayer :=
  if 0 < p.state.y ∨ 0 < p.yVelocity then
    let v := p.yVelocity - GRAVITY * dtTick
    let ny := p.state.y + v * dtTick
    if ny ≤ 0 then
      { p with state := { p.state with y := 0 }, yVelocity := 0 }
    else { p with state := { p.state with y := ny }, yVelocity := v }
  else p

def tickPlayer (p : ServerPlayer) (now : ℤ) : ServerPlayer :=
  if p.state.isDead = true then p
  else tickVertical (tickRegen (tickBlock (tickDodge (tickAttack p now) now)
    now) now)

/-! ### Respawn (`respawnPlayer`, lines 587-609) -/

def respawnPlayer (p : ServerPlayer) (sx sz : ℝ) :
    ServerPlayer × ServerEvent :=
  let rState :=
    { p.state with
      x := sx
      z := sz
      y := (0 : ℚ)
      health := MAX_HEALTH
      stamina := MAX_STAMINA
      isDead := false
      action := PlayerAction.idle
      attackIndex := 0 }
  ({ p with state := rState, yVelocity := (0 : ℚ), respawnTimer := none },
   ServerEvent.respawnEv p.state.id sx sz)

/-! ### State broadcast (`broadcastState`, lines 624-639) -/

/-- The serialized snapshot payload: the source builds the message
object with the full roster *and* `serverTime: Date.now()` and
compares its `JSON.stringify` against `lastBroadcastHash`.
`JSON.stringify` is injective on these values, so string equality is
modelled as structural equality of the payload. -/
structure StatePayload where
  players : List PlayerState
  serverTime : ℤ

/-- One execution of `broadcastState`: returns whether the snapshot was
sent and the new `lastBroadcastHash` (`none` models the initial `""`).
The early return for an empty room (line 625) sends nothing. -/
def broadcastState (roster : List PlayerState) (now : ℤ)
    (lastBroadcastHash : Option StatePayload) :
    Bool × Option StatePayload :=
  if roster.length = 0 then (false, lastBroadcastHash)
  else
    let data : StatePayload := ⟨roster, now⟩
    if some data = lastBroadcastHash then (false, lastBroadcastHash)
    else (true, some data)

/-- The `PlayerState` created in `addPlayer` (lines 119-138). -/
def initialPlayerState (id name color : String) (sx sz : ℝ) : PlayerState :=
  ⟨id, name, sx, 0, sz, 0, MAX_HEALTH, MAX_HEALTH, MAX_STAMINA, MAX_STAMINA,
    .idle, 0, 0, false, 0, 0, color, 0⟩

/-! ### Spec-side predicates -/

/-- The hit condition in the words of the spec ("A hit is registered iff
target distance ≤ attack range AND |angle difference| ≤ arc/2 AND target
is not in an active dodge i-frame"), to be compared with the guard
structure of the source (`registersHit`). -/
def specHitCondition (a : PlayerState) (t : ServerPlayer) (now : ℤ) : Prop :=
  planarDist (t.state.x - a.x) (t.state.z - a.z) ≤ ATTACK_RANGE ∧
  |normAngle (atan2 (-(t.state.x - a.x)) (-(t.state.z - a.z))
      - a.rotation)| ≤ ATTACK_ARC / 2 ∧
  ¬(t.state.action = PlayerAction.dodging ∧
      now - t.dodgeStartTime < DODGE_IFRAME_DURATION)

/-- The range invariant of the spec: health and stamina clamped to
`[0, max]` with both maxima equal to 100. -/
def healthStaminaInv (p : ServerPlayer) : Prop :=
  0 ≤ p.state.health ∧ p.state.health ≤ MAX_HEALTH ∧
  0 ≤ p.state.stamina ∧ p.state.stamina ≤ MAX_STAMINA

/-- The spec invariant `attackIndex > 0 iff action == attacking`,
restricted to living players. -/
def attackIndexInv (p : ServerPlayer) : Prop :=
  p.state.isDead = false →
    (0 < p.state.attackIndex ↔ p.state.action = PlayerAction.attacking)

/-! ### Helper lemmas -/

theorem round_nonneg' {x : ℚ} (hx : 0 ≤ x) : 0 ≤ round x := by
  rw [round_eq]
  exact Int.le_floor.mpr (by push_cast; linarith)

theorem appliedDamage_of_block {a : PlayerState} {t : ServerPlayer} {k : ℚ}
    (h : blockCondition a t) :
    appliedDamage a t k =
      round (((round (ATTACK_DAMAGE * k) : ℤ) : ℚ)
        * (1 - BLOCK_DAMAGE_REDUCTION)) := by
  unfold appliedDamage
  rw [if_pos h]

theorem appliedDamage_of_not_block {a : PlayerState} {t : ServerPlayer}
    {k : ℚ} (h : ¬ blockCondition a t) :
    appliedDamage a t k = round (ATTACK_DAMAGE * k) := by
  unfold appliedDamage
  rw [if_neg h]

theorem appliedDamage_nonneg {a : PlayerState} {t : ServerPlayer} {k : ℚ}
    (hk : 0 ≤ k) : 0 ≤ appliedDamage a t k := by
  have h22 : (0:ℚ) ≤ ATTACK_DAMAGE * k := by
    have : (0:ℚ) ≤ ATTACK_DAMAGE := by norm_num [ATTACK_DAMAGE]
    positivity
  unfold appliedDamage
  split
  · apply round_nonneg'
    have h1 : (0:ℚ) ≤ ((round (ATTACK_DAMAGE * k) : ℤ) : ℚ) := by
      exact_mod_cast round_nonneg' h22
    have h2 : (0:ℚ) ≤ 1 - BLOCK_DAMAGE_REDUCTION := by
      norm_num [BLOCK_DAMAGE_REDUCTION]
    positivity
  · exact round_nonneg' h22

/-- The events of `applyHit` always start with the `hit` broadcast. -/
theorem applyHit_events_ne_nil (a : PlayerState) (t : ServerPlayer)
    (k : ℚ) (now : ℤ) : (applyHit a t k now).2 ≠ [] := by
  unfold applyHit
  dsimp only
  split <;> simp

/-- Fixed attacker for concrete evaluations: at the origin, facing 0. -/
def attackerA : PlayerState :=
  ⟨"a", "A", 0, 0, 0, 0, 100, 100, 100, 100, .idle, 0, 0, false, 0, 0,
    "#e74c3c", 0⟩

/-- Parametric concrete target: two units straight ahead of `attackerA`
(at planar position `(0, -2)`), with chosen action, facing, health,
stamina and combo index. -/
def targetB (act : PlayerAction) (rot : ℝ) (hp st : ℚ) (idx : ℕ) :
    ServerPlayer :=
  ⟨⟨"b", "B", 0, 0, -2, rot, hp, 100, st, 100, act, 0, idx, false, 0, 0,
      "#3498db", 0⟩,
    ⟨0, 0, 0, 1/30⟩, false, none, 0, 0, 0, 0, 0, (0, 0), 0, 0, 0, 0⟩

theorem sqrt_four : Real.sqrt 4 = 2 := by
  rw [show (4:ℝ) = 2 ^ 2 by norm_num, Real.sqrt_sq (by norm_num)]

/-- `attackerA` hits `targetB …` whenever the target is not dodging:
distance 2 ≤ 2.8 and the attacker-to-target angle difference is 0. -/
theorem registersHit_targetB (act : PlayerAction) (rot : ℝ) (hp st : ℚ)
    (idx : ℕ) (h : act ≠ PlayerAction.dodging) :
    registersHit attackerA (targetB act rot hp st idx) 0 := by
  unfold registersHit attackerA targetB
  refine ⟨by simp, fun hc => h hc.1, ?_, ?_⟩
  · unfold planarDist
    rw [show ((0:ℝ) - 0) * (0 - 0) + (-2 - 0) * (-2 - 0) = 4 by norm_num,
      sqrt_four]
    norm_num [ATTACK_RANGE]
  · rw [show (-((0:ℝ) - 0)) = 0 by norm_num,
      show (-((-2:ℝ) - 0)) = 2 by norm_num,
      atan2_zero_of_pos (by norm_num), show (0:ℝ) - 0 = 0 by norm_num,
      normAngle_zero]
    simp only [abs_zero, not_lt, ATTACK_ARC]
    positivity

/-- `targetB` with a facing of `π` blocks `attackerA`'s hit: the
target-to-attacker angle is `π`, so the normalized block angle is 0. -/
theorem blockCondition_targetB (hp st : ℚ) (idx : ℕ) :
    blockCondition attackerA (targetB .blocking π hp st idx) := by
  unfold blockCondition attackerA targetB
  refine ⟨rfl, ?_⟩
  rw [show (-((0:ℝ) - 0)) = 0 by norm_num,
    show (-((0:ℝ) - -2)) = -2 by norm_num,
    atan2_zero_of_neg (by norm_num), sub_self, normAngle_zero]
  simp only [abs_zero]
  positivity

theorem not_blockCondition_targetB (act : PlayerAction) (rot : ℝ)
    (hp st : ℚ) (idx : ℕ) (h : act ≠ PlayerAction.blocking) :
    ¬ blockCondition attackerA (targetB act rot hp st idx) :=
  fun hc => h hc.1

/-- The rate-limiter window reset never touches anything but its own
counters. -/
theorem windowReset_fields (p : ServerPlayer) (now : ℤ) :
    (windowReset p now).state = p.state ∧
    (windowReset p now).input = p.input ∧
    (windowReset p now).attackHitChecked = p.attackHitChecked ∧
    (windowReset p now).respawnTimer = p.respawnTimer ∧
    (windowReset p now).lastInputTime = p.lastInputTime ∧
    (windowReset p now).yVelocity = p.yVelocity ∧
    (windowReset p now).lastStaminaUseTime = p.lastStaminaUseTime ∧
    (windowReset p now).comboCooldownUntil = p.comboCooldownUntil ∧
    (windowReset p now).dodgeStartTime = p.dodgeStartTime ∧
    (windowReset p now).dodgeDir = p.dodgeDir ∧
    (windowReset p now).lastDodgeTime = p.lastDodgeTime ∧
    (windowReset p now).lastSeq = p.lastSeq ∧
    (windowReset p now).inputCount =
      (if 1000 ≤ now - p.inputCountResetTime then 0 else p.inputCount) := by
  unfold windowReset
  split_ifs <;>
    exact ⟨rfl, rfl, rfl, rfl, rfl, rfl, rfl, rfl, rfl, rfl, rfl, rfl, rfl⟩

theorem acceptedPlayer_state (p : ServerPlayer) (now : ℤ) :
    (acceptedPlayer p now).state = p.state :=
  (windowReset_fields p now).1

/-! ### Claims -/

/-- C1: during a combo step's hit evaluation, for every other living
player a hit is registered (the per-target pass emits a broadcast) iff
planar distance ≤ `ATTACK_RANGE`, the normalized angle difference from
the attacker's facing is ≤ `ATTACK_ARC / 2` in absolute value, and the
target is not inside an active dodge i-frame. -/
theorem hit_registered_iff (a : PlayerState) (t : ServerPlayer) (k : ℚ)
    (now : ℤ) (hid : t.state.id ≠ a.id) (hdead : t.state.isDead = false) :
    (processTarget a t k now).2 ≠ [] ↔ specHitCondition a t now := by
  unfold processTarget specHitCondition
  by_cases h : registersHit a t now
  · rw [if_pos h]
    obtain ⟨_, h2, h3, h4⟩ := h
    exact iff_of_true (applyHit_events_ne_nil a t k now)
      ⟨le_of_not_lt h3, le_of_not_lt h4, h2⟩
  · rw [if_neg h]
    constructor
    · intro hne
      exact absurd rfl hne
    · intro hc
      exfalso
      apply h
      refine ⟨?_, hc.2.2, not_lt_of_le hc.1, not_lt_of_le hc.2.1⟩
      intro hor
      rcases hor with h1 | h2
      · exact hid h1
      · rw [hdead] at h2
        exact Bool.false_ne_true h2

/-- Witness for C1 at a concrete input. -/
theorem hit_registered_iff_witness :
    ((targetB .idle 0 100 100 0).state.id ≠ attackerA.id ∧
      (targetB .idle 0 100 100 0).state.isDead = false) ∧
    ((processTarget attackerA (targetB .idle 0 100 100 0) 1 0).2 ≠ [] ↔
      specHitCondition attackerA (targetB .idle 0 100 100 0) 0) :=
  ⟨⟨by decide, by decide⟩,
    hit_registered_iff attackerA (targetB .idle 0 100 100 0) 1 0
      (by decide) (by decide)⟩

/-- C8: when the per-second window counter (after the window-reset
check) exceeds `MAX_INPUT_RATE`, the message is dropped silently: no
broadcast is emitted and every field of the session other than the
rate-limit bookkeeping (`inputCount`, `inputCountResetTime`) is left
unchanged. -/
theorem rate_limit_drop (p : ServerPlayer) (msg : ClientMessage) (now : ℤ)
    (hcap : MAX_INPUT_RATE <
      (if 1000 ≤ now - p.inputCountResetTime then 0 else p.inputCount) + 1) :
    ((handleMessage p msg now).1.state = p.state ∧
     (handleMessage p msg now).1.input = p.input ∧
     (handleMessage p msg now).1.attackHitChecked = p.attackHitChecked ∧
     (handleMessage p msg now).1.respawnTimer = p.respawnTimer ∧
     (handleMessage p msg now).1.lastInputTime = p.lastInputTime ∧
     (handleMessage p msg now).1.yVelocity = p.yVelocity ∧
     (handleMessage p msg now).1.lastStaminaUseTime = p.lastStaminaUseTime ∧
     (handleMessage p msg now).1.comboCooldownUntil = p.comboCooldownUntil ∧
     (handleMessage p msg now).1.dodgeStartTime = p.dodgeStartTime ∧
     (handleMessage p msg now).1.dodgeDir = p.dodgeDir ∧
     (handleMessage p msg now).1.lastDodgeTime = p.lastDodgeTime ∧
     (handleMessage p msg now).1.lastSeq = p.lastSeq) ∧
    (handleMessage p msg now).2 = [] := by
  obtain ⟨w1, w2, w3, w4, w5, w6, w7, w8, w9, w10, w11, w12, w13⟩ :=
    windowReset_fields p now
  have hcond : MAX_INPUT_RATE < (windowReset p now).inputCount + 1 := by
    rw [w13]
    exact hcap
  unfold handleMessage
  rw [if_pos hcond]
  exact ⟨⟨w1, w2, w3, w4, w5, w6, w7, w8, w9, w10, w11, w12⟩, rfl⟩

/-- Witness for C8 at a concrete input. -/
theorem rate_limit_drop_witness :
    (MAX_INPUT_RATE <
      (if (1000:ℤ) ≤ 0 -
          ({ targetB .idle 0 100 100 0 with inputCount := 66
            }).inputCountResetTime then 0
       else ({ targetB .idle 0 100 100 0 with
            inputCount := 66 }).inputCount) + 1) ∧
    (handleMessage { targetB .idle 0 100 100 0 with inputCount := 66 }
        ClientMessage.attack 0).1.state =
      ({ targetB .idle 0 100 100 0 with inputCount := 66 }).state ∧
    (handleMessage { targetB .idle 0 100 100 0 with inputCount := 66 }
        ClientMessage.attack 0).2 = [] :=
  ⟨by decide,
   (rate_limit_drop { targetB .idle 0 100 100 0 with inputCount := 66 }
      ClientMessage.attack 0 (by decide)).1.1,
   (rate_limit_drop { targetB .idle 0 100 100 0 with inputCount := 66 }
      ClientMessage.attack 0 (by decide)).2⟩

/-- C3: for a living player attacking at step n ∈ {1,2} with stamina ≥
`ATTACK_STAMINA_COST` (and whose message passes the rate limiter), an
`attack` message advances the combo to step n+1 — deducting stamina,
restamping `attackTime`, clearing `attackHitChecked` — iff the elapsed
time since `attackTime` lies in the closed chain window of step n;
outside the window the replicated player state is unchanged. -/
theorem combo_advance_iff (p : ServerPlayer) (now : ℤ)
    (hdead : p.state.isDead = false)
    (hact : p.state.action = PlayerAction.attacking)
    (hidx : p.state.attackIndex = 1 ∨ p.state.attackIndex = 2)
    (hst : ATTACK_STAMINA_COST ≤ p.state.stamina)
    (hrate : (if 1000 ≤ now - p.inputCountResetTime then 0
      else p.inputCount) + 1 ≤ MAX_INPUT_RATE) :
    ((COMBO_CHAIN_WINDOW.getD (p.state.attackIndex - 1) ⟨150, 400⟩).start ≤
        now - p.state.attackTime ∧
      now - p.state.attackTime ≤
        (COMBO_CHAIN_WINDOW.getD (p.state.attackIndex - 1) ⟨150, 400⟩).stop →
      (handleMessage p ClientMessage.attack now).1.state =
        { p.state with
          stamina := p.state.stamina - ATTACK_STAMINA_COST
          attackIndex := p.state.attackIndex + 1
          attackTime := now } ∧
      (handleMessage p ClientMessage.attack now).1.attackHitChecked = false ∧
      (handleMessage p ClientMessage.attack now).1.lastStaminaUseTime = now) ∧
    (¬((COMBO_CHAIN_WINDOW.getD (p.state.attackIndex - 1) ⟨150, 400⟩).start ≤
        now - p.state.attackTime ∧
      now - p.state.attackTime ≤
        (COMBO_CHAIN_WINDOW.getD (p.state.attackIndex - 1) ⟨150, 400⟩).stop) →
      (handleMessage p ClientMessage.attack now).1.state = p.state) ∧
    ((handleMessage p ClientMessage.attack now).1.state.attackIndex =
        p.state.attackIndex + 1 ↔
      ((COMBO_CHAIN_WINDOW.getD (p.state.attackIndex - 1) ⟨150, 400⟩).start ≤
        now - p.state.attackTime ∧
      now - p.state.attackTime ≤
        (COMBO_CHAIN_WINDOW.getD (p.state.attackIndex - 1) ⟨150, 400⟩).stop)) := by
  have hst' : ¬ (p.state.stamina < ATTACK_STAMINA_COST) := not_lt.mpr hst
  have hq : (handleMessage p ClientMessage.attack now).1 =
      if (COMBO_CHAIN_WINDOW.getD (p.state.attackIndex - 1) ⟨150, 400⟩).start ≤
          now - p.state.attackTime ∧
        now - p.state.attackTime ≤
          (COMBO_CHAIN_WINDOW.getD (p.state.attackIndex - 1) ⟨150, 400⟩).stop
      then
        { acceptedPlayer p now with
            state := { p.state with
                        stamina := p.state.stamina - ATTACK_STAMINA_COST
                        attackIndex := p.state.attackIndex + 1
                        attackTime := now }
            lastStaminaUseTime := now
            attackHitChecked := false }
      else acceptedPlayer p now := by
    unfold handleMessage
    rw [if_neg (show ¬ (MAX_INPUT_RATE < (windowReset p now).inputCount + 1)
      by rw [(windowReset_fields p now).2.2.2.2.2.2.2.2.2.2.2.2]
         exact not_lt.mpr hrate)]
    unfold applyClientMessage
    dsimp only
    simp only [acceptedPlayer_state]
    rw [if_neg (show ¬(p.state.isDead = true) by simp [hdead])]
    rw [if_neg (show ¬(p.state.action = PlayerAction.dodging) by
      simp [hact])]
    rw [if_neg hst']
    rw [if_neg (show ¬(p.state.action = PlayerAction.idle) by simp [hact])]
    rw [if_pos hact]
    rw [if_pos (show 1 ≤ p.state.attackIndex ∧ p.state.attackIndex < 3 by
      rcases hidx with h | h <;> simp [h])]
    split
    next => rfl
    next => rfl
  refine ⟨?_, ?_, ?_⟩
  · intro hw
    rw [hq, if_pos hw]
    exact ⟨rfl, rfl, rfl⟩
  · intro hw
    rw [hq, if_neg hw]
    exact acceptedPlayer_state p now
  · constructor
    · intro hadv
      by_contra hw
      rw [hq, if_neg hw] at hadv
      rw [acceptedPlayer_state] at hadv
      simp at hadv
    · intro hw
      rw [hq, if_pos hw]

/-- Witness for C3 at a concrete input: step 1, elapsed 200 ms. -/
theorem combo_advance_iff_witness :
    ((targetB .attacking 0 100 100 1).state.isDead = false ∧
     (targetB .attacking 0 100 100 1).state.action = PlayerAction.attacking ∧
     ((targetB .attacking 0 100 100 1).state.attackIndex = 1 ∨
      (targetB .attacking 0 100 100 1).state.attackIndex = 2) ∧
     ATTACK_STAMINA_COST ≤ (targetB .attacking 0 100 100 1).state.stamina) ∧
    ((handleMessage (targetB .attacking 0 100 100 1) ClientMessage.attack
        200).1.state.attackIndex =
      (targetB .attacking 0 100 100 1).state.attackIndex + 1 ↔
      ((COMBO_CHAIN_WINDOW.getD
          ((targetB .attacking 0 100 100 1).state.attackIndex - 1)
          ⟨150, 400⟩).start ≤
        200 - (targetB .attacking 0 100 100 1).state.attackTime ∧
      200 - (targetB .attacking 0 100 100 1).state.attackTime ≤
        (COMBO_CHAIN_WINDOW.getD
          ((targetB .attacking 0 100 100 1).state.attackIndex - 1)
          ⟨150, 400⟩).stop)) :=
  ⟨⟨by decide, by decide, Or.inl (by decide), by decide⟩,
   (combo_advance_iff (targetB .attacking 0 100 100 1) 200 (by decide)
      (by decide) (Or.inl (by decide)) (by decide) (by decide)).2.2⟩

/-- C9 (code-bug evidence): `broadcastState` embeds `serverTime` in the
compared payload, so with a one-player roster unchanged between an
execution at time 0 and the next at time 50, the second execution still
sends a snapshot — the suppression the claim (and the source's own
comment) describes does not fire. -/
theorem broadcast_resends_unchanged_roster :
    (broadcastState [attackerA] 0 none).1 = true ∧
    (broadcastState [attackerA] 50
      (broadcastState [attackerA] 0 none).2).1 = true := by
  have h1 : broadcastState [attackerA] 0 none =
      (true, some ⟨[attackerA], 0⟩) := by
    unfold broadcastState
    rw [if_neg (by simp)]
    dsimp only
    rw [if_neg (by simp)]
  refine ⟨by rw [h1], ?_⟩
  rw [h1]
  unfold broadcastState
  rw [if_neg (by simp)]
  dsimp only
  rw [if_neg (by simp)]

/-- The `hit` broadcast of a registered hit carries `appliedDamage`. -/
theorem hitDamageOf_processTarget (a : PlayerState) (t : ServerPlayer)
    (k : ℚ) (now : ℤ) (hhit : registersHit a t now) :
    hitDamageOf (processTarget a t k now).2 = some (appliedDamage a t k) := by
  unfold processTarget
  rw [if_pos hhit]
  unfold applyHit
  dsimp only
  split
  · rfl
  · rfl

/-- The `hit` broadcast of a registered hit carries the block flag. -/
theorem hitBlockedOf_processTarget (a : PlayerState) (t : ServerPlayer)
    (k : ℚ) (now : ℤ) (hhit : registersHit a t now) :
    hitBlockedOf (processTarget a t k now).2 =
      some (if blockCondition a t then true else false) := by
  unfold processTarget
  rw [if_pos hhit]
  unfold applyHit
  dsimp only
  split
  · rfl
  · rfl

/-- The target's stamina after a registered hit: drained by 10 and
floored at 0 when the hit was blocked, untouched otherwise. -/
theorem stamina_processTarget (a : PlayerState) (t : ServerPlayer)
    (k : ℚ) (now : ℤ) (hhit : registersHit a t now) :
    (processTarget a t k now).1.state.stamina =
      (if blockCondition a t then
        (if t.state.stamina - 10 < 0 then 0 else t.state.stamina - 10)
      else t.state.stamina) := by
  unfold processTarget
  rw [if_pos hhit]
  unfold applyHit
  dsimp only
  split
  · rfl
  · rfl

/-- `processMovement` only moves and rotates: combat-relevant state
fields are untouched. -/
theorem processMovement_fields (p : ServerPlayer) :
    (processMovement p).state.action = p.state.action ∧
    (processMovement p).state.attackIndex = p.state.attackIndex ∧
    (processMovement p).state.isDead = p.state.isDead ∧
    (processMovement p).state.health = p.state.health ∧
    (processMovement p).state.stamina = p.state.stamina := by
  unfold processMovement
  split
  · exact ⟨rfl, rfl, rfl, rfl, rfl⟩
  · dsimp only
    split
    · exact ⟨rfl, rfl, rfl, rfl, rfl⟩
    · split
      · exact ⟨rfl, rfl, rfl, rfl, rfl⟩
      · split
        · exact ⟨rfl, rfl, rfl, rfl, rfl⟩
        · exact ⟨rfl, rfl, rfl, rfl, rfl⟩

/-- Outcome of a lethal registered hit: health clamped, `isDead` set,
action zeroed, `attackIndex` left as it was, respawn scheduled, deaths
incremented. -/
theorem processTarget_death (a : PlayerState) (t : ServerPlayer) (k : ℚ)
    (now : ℤ) (hhit : registersHit a t now)
    (hlethal : t.state.health - ((appliedDamage a t k : ℤ) : ℚ) ≤ 0) :
    (processTarget a t k now).1.state.isDead = true ∧
    (processTarget a t k now).1.state.action = PlayerAction.idle ∧
    (processTarget a t k now).1.state.attackIndex = t.state.attackIndex ∧
    (processTarget a t k now).1.respawnTimer = some (now + RESPAWN_TIME) ∧
    (processTarget a t k now).1.state.deaths = t.state.deaths + 1 := by
  unfold processTarget
  rw [if_pos hhit]
  unfold applyHit
  dsimp only
  rw [if_pos hlethal]
  exact ⟨rfl, rfl, rfl, rfl, rfl⟩

/-- The stored health after a registered hit: reduced by the applied
damage and clamped at 0 in the death branch. -/
theorem health_processTarget (a : PlayerState) (t : ServerPlayer) (k : ℚ)
    (now : ℤ) (hhit : registersHit a t now) :
    (processTarget a t k now).1.state.health =
      (if t.state.health - ((appliedDamage a t k : ℤ) : ℚ) ≤ 0 then 0
       else t.state.health - ((appliedDamage a t k : ℤ) : ℚ)) := by
  unfold processTarget
  rw [if_pos hhit]
  unfold applyHit
  dsimp only
  split
  next h => rfl
  next h => rfl

theorem processMovement_healthStamina (q : ServerPlayer)
    (h : 0 ≤ q.state.health ∧ q.state.health ≤ MAX_HEALTH ∧
      0 ≤ q.state.stamina ∧ q.state.stamina ≤ MAX_STAMINA) :
    healthStaminaInv (processMovement q) := by
  obtain ⟨a1, a2, a3, a4⟩ := h
  have hf := processMovement_fields q
  unfold healthStaminaInv
  rw [hf.2.2.2.1, hf.2.2.2.2]
  exact ⟨a1, a2, a3, a4⟩

theorem applyClientMessage_healthStamina (p : ServerPlayer)
    (msg : ClientMessage) (now : ℤ) (h : healthStaminaInv p) :
    healthStaminaInv (applyClientMessage p msg now).1 := by
  obtain ⟨h1, h2, h3, h4⟩ := h
  have hac : (0:ℚ) ≤ ATTACK_STAMINA_COST := by norm_num [ATTACK_STAMINA_COST]
  have hdc : (0:ℚ) ≤ DODGE_STAMINA_COST := by norm_num [DODGE_STAMINA_COST]
  unfold healthStaminaInv applyClientMessage
  cases msg with
  | move seq f r rot dt =>
    dsimp only
    split_ifs <;>
      first
      | exact ⟨h1, h2, h3, h4⟩
      | exact processMovement_healthStamina _ ⟨h1, h2, h3, h4⟩
  | attack =>
    dsimp only
    split_ifs <;>
      first
      | exact ⟨h1, h2, h3, h4⟩
      | exact ⟨h1, h2, sub_nonneg.mpr (not_lt.mp (by assumption)),
          le_trans (sub_le_self _ hac) h4⟩
  | blockStart =>
    dsimp only
    split_ifs <;> exact ⟨h1, h2, h3, h4⟩
  | blockEnd =>
    dsimp only
    split_ifs <;> exact ⟨h1, h2, h3, h4⟩
  | jump =>
    dsimp only
    split_ifs <;> exact ⟨h1, h2, h3, h4⟩
  | dodge =>
    dsimp only
    split_ifs <;>
      first
      | exact ⟨h1, h2, h3, h4⟩
      | exact ⟨h1, h2, sub_nonneg.mpr (not_lt.mp (by assumption)),
          le_trans (sub_le_self _ hdc) h4⟩
  | setName name =>
    dsimp only
    split_ifs <;> exact ⟨h1, h2, h3, h4⟩

/-- Transport of the health/stamina range invariant along health and
stamina equalities. -/
theorem healthStaminaInv_of_eq {q r : ServerPlayer} (h : healthStaminaInv q)
    (hh : r.state.health = q.state.health)
    (hs : r.state.stamina = q.state.stamina) : healthStaminaInv r := by
  unfold healthStaminaInv at h ⊢
  rw [hh, hs]
  exact h

theorem tickAttack_fields (p : ServerPlayer) (now : ℤ) :
    (tickAttack p now).state.health = p.state.health ∧
    (tickAttack p now).state.stamina = p.state.stamina ∧
    (tickAttack p now).state.isDead = p.state.isDead ∧
    (tickAttack p now).state.x = p.state.x ∧
    (tickAttack p now).state.z = p.state.z := by
  unfold tickAttack
  dsimp only
  split_ifs <;> exact ⟨rfl, rfl, rfl, rfl, rfl⟩

theorem tickDodge_fields (p : ServerPlayer) (now : ℤ) :
    (tickDodge p now).state.health = p.state.health ∧
    (tickDodge p now).state.stamina = p.state.stamina ∧
    (tickDodge p now).state.isDead = p.state.isDead ∧
    (tickDodge p now).state.attackIndex = p.state.attackIndex := by
  unfold tickDodge
  dsimp only
  split_ifs <;> exact ⟨rfl, rfl, rfl, rfl⟩

theorem tickBlock_fields (p : ServerPlayer) (now : ℤ) :
    (tickBlock p now).state.health = p.state.health ∧
    (tickBlock p now).state.isDead = p.state.isDead ∧
    (tickBlock p now).state.x = p.state.x ∧
    (tickBlock p now).state.z = p.state.z ∧
    (tickBlock p now).state.attackIndex = p.state.attackIndex := by
  unfold tickBlock
  dsimp only
  split_ifs <;> exact ⟨rfl, rfl, rfl, rfl, rfl⟩

theorem tickRegen_fields (p : ServerPlayer) (now : ℤ) :
    (tickRegen p now).state.health = p.state.health ∧
    (tickRegen p now).state.isDead = p.state.isDead ∧
    (tickRegen p now).state.x = p.state.x ∧
    (tickRegen p now).state.z = p.state.z ∧
    (tickRegen p now).state.action = p.state.action ∧
    (tickRegen p now).state.attackIndex = p.state.attackIndex := by
  unfold tickRegen
  dsimp only
  split_ifs <;> exact ⟨rfl, rfl, rfl, rfl, rfl, rfl⟩

theorem tickVertical_fields (p : ServerPlayer) :
    (tickVertical p).state.health = p.state.health ∧
    (tickVertical p).state.stamina = p.state.stamina ∧
    (tickVertical p).state.isDead = p.state.isDead ∧
    (tickVertical p).state.x = p.state.x ∧
    (tickVertical p).state.z = p.state.z ∧
    (tickVertical p).state.action = p.state.action ∧
    (tickVertical p).state.attackIndex = p.state.attackIndex := by
  unfold tickVertical
  dsimp only
  split_ifs <;> exact ⟨rfl, rfl, rfl, rfl, rfl, rfl, rfl⟩

theorem tickBlock_healthStamina (p : ServerPlayer) (now : ℤ)
    (h : healthStaminaInv p) : healthStaminaInv (tickBlock p now) := by
  obtain ⟨h1, h2, h3, h4⟩ := h
  have hdr : (0:ℚ) ≤ BLOCK_STAMINA_DRAIN * dtTick := by
    norm_num [BLOCK_STAMINA_DRAIN, dtTick]
  unfold healthStaminaInv tickBlock
  dsimp only
  split_ifs <;>
    first
    | exact ⟨h1, h2, h3, h4⟩
    | exact ⟨h1, h2, le_refl 0, by norm_num [MAX_STAMINA]⟩
    | exact ⟨h1, h2, le_of_lt (not_le.mp (by assumption)),
        le_trans (sub_le_self _ hdr) h4⟩

theorem tickRegen_healthStamina (p : ServerPlayer) (now : ℤ)
    (h : healthStaminaInv p) : healthStaminaInv (tickRegen p now) := by
  obtain ⟨h1, h2, h3, h4⟩ := h
  have hrr : (0:ℚ) ≤ STAMINA_REGEN_RATE * dtTick := by
    norm_num [STAMINA_REGEN_RATE, dtTick]
  unfold healthStaminaInv tickRegen
  dsimp only
  split_ifs <;>
    first
    | exact ⟨h1, h2, h3, h4⟩
    | exact ⟨h1, h2, le_min (by norm_num [MAX_STAMINA]) (by linarith),
        min_le_left _ _⟩

theorem tickPlayer_healthStamina (p : ServerPlayer) (now : ℤ)
    (h : healthStaminaInv p) : healthStaminaInv (tickPlayer p now) := by
  unfold tickPlayer
  split_ifs with hd
  · exact h
  · have i1 : healthStaminaInv (tickAttack p now) :=
      healthStaminaInv_of_eq h (tickAttack_fields p now).1
        (tickAttack_fields p now).2.1
    have i2 : healthStaminaInv (tickDodge (tickAttack p now) now) :=
      healthStaminaInv_of_eq i1 (tickDodge_fields _ now).1
        (tickDodge_fields _ now).2.1
    have i3 := tickBlock_healthStamina _ now i2
    have i4 := tickRegen_healthStamina _ now i3
    exact healthStaminaInv_of_eq i4 (tickVertical_fields _).1
      (tickVertical_fields _).2.1

theorem handleMessage_healthStamina (p : ServerPlayer)
    (msg : ClientMessage) (now : ℤ) (h : healthStaminaInv p) :
    healthStaminaInv (handleMessage p msg now).1 := by
  unfold handleMessage
  split_ifs
  · exact healthStaminaInv_of_eq h
      (congrArg PlayerState.health (windowReset_fields p now).1)
      (congrArg PlayerState.stamina (windowReset_fields p now).1)
  · exact applyClientMessage_healthStamina _ msg now
      (healthStaminaInv_of_eq h
        (congrArg PlayerState.health (acceptedPlayer_state p now))
        (congrArg PlayerState.stamina (acceptedPlayer_state p now)))

theorem processTarget_healthStamina (a : PlayerState) (t : ServerPlayer)
    (k : ℚ) (now : ℤ) (hk : 0 ≤ k) (h : healthStaminaInv t) :
    healthStaminaInv (processTarget a t k now).1 := by
  obtain ⟨h1, h2, h3, h4⟩ := h
  by_cases hhit : registersHit a t now
  · have hd0 : (0:ℚ) ≤ ((appliedDamage a t k : ℤ) : ℚ) := by
      exact_mod_cast appliedDamage_nonneg hk
    have hh := health_processTarget a t k now hhit
    have hs := stamina_processTarget a t k now hhit
    unfold healthStaminaInv
    rw [hh, hs]
    refine ⟨?_, ?_, ?_, ?_⟩
    · split_ifs with hd
      · norm_num
      · linarith [not_le.mp hd]
    · split_ifs with hd
      · norm_num [MAX_HEALTH]
      · linarith
    · split_ifs with hb hf
      · norm_num
      · linarith [not_lt.mp hf]
      · exact h3
    · split_ifs with hb hf
      · norm_num [MAX_STAMINA]
      · linarith
      · exact h4
  · unfold healthStaminaInv processTarget
    rw [if_neg hhit]
    exact ⟨h1, h2, h3, h4⟩

theorem respawnPlayer_healthStamina (p : ServerPlayer) (sx sz : ℝ) :
    healthStaminaInv (respawnPlayer p sx sz).1 := by
  unfold healthStaminaInv respawnPlayer
  exact ⟨by norm_num [MAX_HEALTH], le_refl _, by norm_num [MAX_STAMINA],
    le_refl _⟩

/-- C10: when the applied damage exceeds the target's health, the `hit`
broadcast carries the pre-clamp difference `health - damage` (strictly
negative) as `targetHealth`, while the stored health is clamped to 0 and
`isDead` set within the same per-target resolution. -/
theorem negative_health_event (a : PlayerState) (t : ServerPlayer) (k : ℚ)
    (now : ℤ) (hhit : registersHit a t now)
    (hlt : t.state.health < ((appliedDamage a t k : ℤ) : ℚ)) :
    hitHealthOf (processTarget a t k now).2 =
      some (t.state.health - ((appliedDamage a t k : ℤ) : ℚ)) ∧
    t.state.health - ((appliedDamage a t k : ℤ) : ℚ) < 0 ∧
    (processTarget a t k now).1.state.health = 0 ∧
    (processTarget a t k now).1.state.isDead = true := by
  unfold processTarget
  rw [if_pos hhit]
  unfold applyHit
  dsimp only
  rw [if_pos (show t.state.health - ((appliedDamage a t k : ℤ) : ℚ) ≤ 0 by
    linarith)]
  exact ⟨rfl, by linarith, rfl, rfl⟩

/-- Witness for C10 at a concrete input: an idle target with 5 health
takes an unblocked step-1 hit of 22 damage. -/
theorem negative_health_event_witness :
    (registersHit attackerA (targetB .idle 0 5 100 0) 0 ∧
     (targetB .idle 0 5 100 0).state.health <
       ((appliedDamage attackerA (targetB .idle 0 5 100 0) 1 : ℤ) : ℚ)) ∧
    hitHealthOf (processTarget attackerA (targetB .idle 0 5 100 0) 1 0).2 =
      some ((targetB .idle 0 5 100 0).state.health -
        ((appliedDamage attackerA (targetB .idle 0 5 100 0) 1 : ℤ) : ℚ)) ∧
    (processTarget attackerA (targetB .idle 0 5 100 0) 1 0).1.state.health
      = 0 ∧
    (processTarget attackerA (targetB .idle 0 5 100 0) 1 0).1.state.isDead
      = true := by
  have hhit := registersHit_targetB .idle 0 5 100 0 (by decide)
  have hlt : (targetB .idle 0 5 100 0).state.health <
      ((appliedDamage attackerA (targetB .idle 0 5 100 0) 1 : ℤ) : ℚ) := by
    rw [appliedDamage_of_not_block
      (not_blockCondition_targetB .idle 0 5 100 0 (by decide))]
    norm_num [ATTACK_DAMAGE, targetB]
  exact ⟨⟨hhit, hlt⟩,
    (negative_health_event attackerA (targetB .idle 0 5 100 0) 1 0
      hhit hlt).1,
    (negative_health_event attackerA (targetB .idle 0 5 100 0) 1 0
      hhit hlt).2.2.1,
    (negative_health_event attackerA (targetB .idle 0 5 100 0) 1 0
      hhit hlt).2.2.2⟩

/-- C4 counterexample: at combo step 3 (multiplier 1.35), a blocked hit
applies 8 damage — the source first rounds the step damage
(`round(22·1.35) = 30`) and then rounds after the reduction
(`round(30·0.25) = 8`) — while the claim's single-rounding formula
`round(22·1.35·(1−0.75))` gives 7. -/
theorem block_mitigation_counterexample :
    hitDamageOf (processTarget attackerA (targetB .blocking π 50 50 0)
      1.35 0).2 = some 8 ∧
    round (ATTACK_DAMAGE * (1.35 : ℚ) * (1 - BLOCK_DAMAGE_REDUCTION)) =
      (7 : ℤ) := by
  constructor
  · rw [hitDamageOf_processTarget _ _ _ _
      (registersHit_targetB .blocking π 50 50 0 (by decide)),
      appliedDamage_of_block (blockCondition_targetB 50 50 0)]
    have h30 : round (ATTACK_DAMAGE * (1.35 : ℚ)) = (30 : ℤ) := by
      rw [round_eq]
      apply Int.floor_eq_iff.mpr
      constructor <;> norm_num [ATTACK_DAMAGE]
    rw [h30]
    have h8 : round (((30 : ℤ) : ℚ) * (1 - BLOCK_DAMAGE_REDUCTION)) =
        (8 : ℤ) := by
      rw [round_eq]
      apply Int.floor_eq_iff.mpr
      constructor <;> norm_num [BLOCK_DAMAGE_REDUCTION]
    rw [h8]
  · rw [round_eq]
    apply Int.floor_eq_iff.mpr
    constructor <;> norm_num [ATTACK_DAMAGE, BLOCK_DAMAGE_REDUCTION]

/-- C4 (amended): for a registered hit on a target that is blocking with
the attacker within `±π/2` of its facing, the applied damage is the
double-rounded `round(round(22·k)·(1−0.75))`, the hit is marked blocked
and the target's stamina is drained by 10 (floored at 0); every other
registered hit applies `round(22·k)` unblocked with no stamina drain. -/
theorem block_mitigation (a : PlayerState) (t : ServerPlayer) (k : ℚ)
    (now : ℤ) (hhit : registersHit a t now) :
    (blockCondition a t →
      hitDamageOf (processTarget a t k now).2 =
        some (round (((round (ATTACK_DAMAGE * k) : ℤ) : ℚ)
          * (1 - BLOCK_DAMAGE_REDUCTION))) ∧
      hitBlockedOf (processTarget a t k now).2 = some true ∧
      (processTarget a t k now).1.state.stamina =
        (if t.state.stamina - 10 < 0 then 0 else t.state.stamina - 10)) ∧
    (¬ blockCondition a t →
      hitDamageOf (processTarget a t k now).2 =
        some (round (ATTACK_DAMAGE * k)) ∧
      hitBlockedOf (processTarget a t k now).2 = some false ∧
      (processTarget a t k now).1.state.stamina = t.state.stamina) := by
  constructor
  · intro hb
    refine ⟨?_, ?_, ?_⟩
    · rw [hitDamageOf_processTarget a t k now hhit,
        appliedDamage_of_block hb]
    · rw [hitBlockedOf_processTarget a t k now hhit, if_pos hb]
    · rw [stamina_processTarget a t k now hhit, if_pos hb]
  · intro hb
    refine ⟨?_, ?_, ?_⟩
    · rw [hitDamageOf_processTarget a t k now hhit,
        appliedDamage_of_not_block hb]
    · rw [hitBlockedOf_processTarget a t k now hhit, if_neg hb]
    · rw [stamina_processTarget a t k now hhit, if_neg hb]

/-- Witness for the amended C4 at a concrete input: a blocking target
facing the attacker. -/
theorem block_mitigation_witness :
    registersHit attackerA (targetB .blocking π 50 50 0) 0 ∧
    blockCondition attackerA (targetB .blocking π 50 50 0) ∧
    hitBlockedOf (processTarget attackerA (targetB .blocking π 50 50 0)
      1 0).2 = some true ∧
    (processTarget attackerA (targetB .blocking π 50 50 0)
        1 0).1.state.stamina =
      (if (targetB .blocking π 50 50 0).state.stamina - 10 < 0 then 0
       else (targetB .blocking π 50 50 0).state.stamina - 10) := by
  have hhit := registersHit_targetB .blocking π 50 50 0 (by decide)
  have hb := blockCondition_targetB 50 50 0
  exact ⟨hhit, hb,
    ((block_mitigation attackerA (targetB .blocking π 50 50 0) 1 0
      hhit).1 hb).2.1,
    ((block_mitigation attackerA (targetB .blocking π 50 50 0) 1 0
      hhit).1 hb).2.2⟩

/-- C2: every state-mutating operation — message handling, the per-player
simulation tick, per-target hit resolution (with the nonnegative damage
multipliers the tick passes), and respawn — keeps health in
`[0, MAX_HEALTH]` and stamina in `[0, MAX_STAMINA]`. -/
theorem health_stamina_clamped :
    (∀ p msg now, healthStaminaInv p →
      healthStaminaInv (handleMessage p msg now).1) ∧
    (∀ p now, healthStaminaInv p → healthStaminaInv (tickPlayer p now)) ∧
    (∀ a t k now, 0 ≤ k → healthStaminaInv t →
      healthStaminaInv (processTarget a t k now).1) ∧
    (∀ p sx sz, healthStaminaInv (respawnPlayer p sx sz).1) :=
  ⟨handleMessage_healthStamina, tickPlayer_healthStamina,
    fun a t k now hk h => processTarget_healthStamina a t k now hk h,
    respawnPlayer_healthStamina⟩

/-- Witness for C2 at concrete inputs. -/
theorem health_stamina_clamped_witness :
    (healthStaminaInv (targetB .idle 0 50 50 0) ∧ (0:ℚ) ≤ 1) ∧
    healthStaminaInv
      (handleMessage (targetB .idle 0 50 50 0) ClientMessage.attack 0).1 ∧
    healthStaminaInv (tickPlayer (targetB .idle 0 50 50 0) 0) ∧
    healthStaminaInv
      (processTarget attackerA (targetB .idle 0 50 50 0) 1 0).1 ∧
    healthStaminaInv (respawnPlayer (targetB .idle 0 50 50 0) 0 0).1 := by
  have hi : healthStaminaInv (targetB .idle 0 50 50 0) := by
    unfold healthStaminaInv targetB
    refine ⟨?_, ?_, ?_, ?_⟩ <;> norm_num [MAX_HEALTH, MAX_STAMINA]
  exact ⟨⟨hi, by norm_num⟩,
    health_stamina_clamped.1 (targetB .idle 0 50 50 0)
      ClientMessage.attack 0 hi,
    health_stamina_clamped.2.1 (targetB .idle 0 50 50 0) 0 hi,
    health_stamina_clamped.2.2.1 attackerA (targetB .idle 0 50 50 0) 1 0
      (by norm_num) hi,
    health_stamina_clamped.2.2.2 (targetB .idle 0 50 50 0) 0 0⟩

/-- Transport of the attack-index invariant along field equalities. -/
theorem attackIndexInv_of_eq {q r : ServerPlayer} (h : attackIndexInv q)
    (hd : r.state.isDead = q.state.isDead)
    (hi : r.state.attackIndex = q.state.attackIndex)
    (ha : r.state.action = q.state.action) : attackIndexInv r := by
  unfold attackIndexInv at h ⊢
  rw [hd, hi, ha]
  exact h

theorem applyClientMessage_attackIndexInv (p : ServerPlayer)
    (msg : ClientMessage) (now : ℤ) (h : attackIndexInv p) :
    attackIndexInv (applyClientMessage p msg now).1 := by
  unfold applyClientMessage
  cases msg with
  | move seq f r rot dt =>
    dsimp only
    split_ifs <;>
      exact attackIndexInv_of_eq h (processMovement_fields _).2.2.1
        (processMovement_fields _).2.1 (processMovement_fields _).1
  | attack =>
    dsimp only
    split_ifs <;>
      first
      | exact h
      | (intro _; exact iff_of_true (Nat.succ_pos _) (by assumption))
      | (intro _; exact iff_of_true (Nat.succ_pos _) rfl)
  | blockStart =>
    dsimp only
    split_ifs with hc
    · intro _
      refine iff_of_false ?_ (fun hx => PlayerAction.noConfusion hx)
      intro hlt
      have hx := (h hc.2.1).mp hlt
      rw [hc.1] at hx
      simp at hx
    · exact h
  | blockEnd =>
    dsimp only
    split_ifs with hc
    · intro hdd
      refine iff_of_false ?_ (fun hx => PlayerAction.noConfusion hx)
      intro hlt
      have hx := (h hdd).mp hlt
      rw [hc] at hx
      simp at hx
    · exact h
  | jump =>
    dsimp only
    split_ifs <;> exact h
  | dodge =>
    dsimp only
    split_ifs with c1 c2 c3 c4 c5
    · exact h
    · exact h
    · exact h
    · exact h
    all_goals
      intro _
      refine iff_of_false ?_ (fun hx => PlayerAction.noConfusion hx)
      intro hlt
      have hdf : p.state.isDead = false := by simpa using c1
      exact c2 (Or.inl ((h hdf).mp hlt))
  | setName name =>
    dsimp only
    split_ifs
    · exact attackIndexInv_of_eq h rfl rfl rfl
    · exact h

theorem handleMessage_attackIndexInv (p : ServerPlayer)
    (msg : ClientMessage) (now : ℤ) (h : attackIndexInv p) :
    attackIndexInv (handleMessage p msg now).1 := by
  unfold handleMessage
  split_ifs
  · exact attackIndexInv_of_eq h
      (congrArg PlayerState.isDead (windowReset_fields p now).1)
      (congrArg PlayerState.attackIndex (windowReset_fields p now).1)
      (congrArg PlayerState.action (windowReset_fields p now).1)
  · exact applyClientMessage_attackIndexInv _ msg now
      (attackIndexInv_of_eq h
        (congrArg PlayerState.isDead (acceptedPlayer_state p now))
        (congrArg PlayerState.attackIndex (acceptedPlayer_state p now))
        (congrArg PlayerState.action (acceptedPlayer_state p now)))

theorem tickAttack_attackIndexInv (p : ServerPlayer) (now : ℤ)
    (h : attackIndexInv p) : attackIndexInv (tickAttack p now) := by
  unfold tickAttack
  dsimp only
  split_ifs <;>
    first
    | exact h
    | (intro _;
       exact iff_of_false (Nat.lt_irrefl 0)
         (fun hx => PlayerAction.noConfusion hx))

theorem tickDodge_attackIndexInv (p : ServerPlayer) (now : ℤ)
    (h : attackIndexInv p) : attackIndexInv (tickDodge p now) := by
  unfold tickDodge
  dsimp only
  split_ifs with hd he
  · exact h
  · intro hdd
    refine iff_of_false ?_ (fun hx => PlayerAction.noConfusion hx)
    intro hlt
    have hx := (h hdd).mp hlt
    rw [hd] at hx
    simp at hx
  · exact h

theorem tickBlock_attackIndexInv (p : ServerPlayer) (now : ℤ)
    (h : attackIndexInv p) : attackIndexInv (tickBlock p now) := by
  unfold tickBlock
  dsimp only
  split_ifs with hb he
  · intro hdd
    refine iff_of_false ?_ (fun hx => PlayerAction.noConfusion hx)
    intro hlt
    have hx := (h hdd).mp hlt
    rw [hb] at hx
    simp at hx
  · exact h
  · exact h

theorem tickRegen_attackIndexInv (p : ServerPlayer) (now : ℤ)
    (h : attackIndexInv p) : attackIndexInv (tickRegen p now) := by
  exact attackIndexInv_of_eq h (tickRegen_fields p now).2.1
    (tickRegen_fields p now).2.2.2.2.2 (tickRegen_fields p now).2.2.2.2.1

theorem tickVertical_attackIndexInv (p : ServerPlayer)
    (h : attackIndexInv p) : attackIndexInv (tickVertical p) := by
  exact attackIndexInv_of_eq h (tickVertical_fields p).2.2.1
    (tickVertical_fields p).2.2.2.2.2.2 (tickVertical_fields p).2.2.2.2.2.1

theorem tickPlayer_attackIndexInv (p : ServerPlayer) (now : ℤ)
    (h : attackIndexInv p) : attackIndexInv (tickPlayer p now) := by
  unfold tickPlayer
  split_ifs
  · exact h
  · exact tickVertical_attackIndexInv _
      (tickRegen_attackIndexInv _ now
        (tickBlock_attackIndexInv _ now
          (tickDodge_attackIndexInv _ now
            (tickAttack_attackIndexInv _ now h))))

theorem processTarget_attackIndexInv (a : PlayerState) (t : ServerPlayer)
    (k : ℚ) (now : ℤ) (h : attackIndexInv t) :
    attackIndexInv (processTarget a t k now).1 := by
  by_cases hhit : registersHit a t now
  · unfold processTarget
    rw [if_pos hhit]
    unfold applyHit
    dsimp only
    split_ifs <;>
      first
      | exact h
      | (intro hdd; simp at hdd)
  · unfold processTarget
    rw [if_neg hhit]
    exact h

theorem respawnPlayer_attackIndexInv (p : ServerPlayer) (sx sz : ℝ) :
    attackIndexInv (respawnPlayer p sx sz).1 := by
  unfold attackIndexInv respawnPlayer
  intro _
  exact iff_of_false (Nat.lt_irrefl 0) (fun hx => PlayerAction.noConfusion hx)

/-- C7 counterexample: a player killed while mid-combo (attacking at
step 2) leaves hit resolution with `action = idle` but
`attackIndex = 2` — the death transition resets the action without
resetting `attackIndex`, so `attackIndex > 0 iff action == attacking`
fails after this operation. -/
theorem attack_index_invariant_counterexample :
    0 < (processTarget attackerA (targetB .attacking 0 5 100 2)
      1 0).1.state.attackIndex ∧
    (processTarget attackerA (targetB .attacking 0 5 100 2)
      1 0).1.state.action ≠ PlayerAction.attacking := by
  have hhit := registersHit_targetB .attacking 0 5 100 2 (by decide)
  have hlethal : (targetB .attacking 0 5 100 2).state.health -
      ((appliedDamage attackerA (targetB .attacking 0 5 100 2) 1 : ℤ) : ℚ)
      ≤ 0 := by
    rw [appliedDamage_of_not_block
      (not_blockCondition_targetB .attacking 0 5 100 2 (by decide))]
    norm_num [ATTACK_DAMAGE, targetB]
  have h := processTarget_death attackerA (targetB .attacking 0 5 100 2)
    1 0 hhit hlethal
  constructor
  · rw [h.2.2.1]
    decide
  · rw [h.2.1]
    decide

/-- C7 (amended): for living players, `attackIndex > 0` iff the action
is `attacking`, and this is preserved by every operation; the death
transition inside hit resolution sets `action` to idle but leaves
`attackIndex` untouched (it is reset only by the respawn), so the
equivalence is restricted to players with `isDead = false`. -/
theorem attack_index_invariant :
    (∀ p msg now, attackIndexInv p →
      attackIndexInv (handleMessage p msg now).1) ∧
    (∀ p now, attackIndexInv p → attackIndexInv (tickPlayer p now)) ∧
    (∀ a t k now, attackIndexInv t →
      attackIndexInv (processTarget a t k now).1) ∧
    (∀ p sx sz, attackIndexInv (respawnPlayer p sx sz).1) :=
  ⟨handleMessage_attackIndexInv, tickPlayer_attackIndexInv,
    processTarget_attackIndexInv, respawnPlayer_attackIndexInv⟩

/-- Witness for the amended C7 at concrete inputs. -/
theorem attack_index_invariant_witness :
    attackIndexInv (targetB .attacking 0 100 100 1) ∧
    attackIndexInv
      (handleMessage (targetB .attacking 0 100 100 1)
        ClientMessage.attack 200).1 ∧
    attackIndexInv (tickPlayer (targetB .attacking 0 100 100 1) 0) ∧
    attackIndexInv
      (processTarget attackerA (targetB .attacking 0 100 100 1) 1 0).1 ∧
    attackIndexInv (respawnPlayer (targetB .attacking 0 100 100 1) 0 0).1
    := by
  have hi : attackIndexInv (targetB .attacking 0 100 100 1) := by
    unfold attackIndexInv targetB
    intro _
    exact iff_of_true (Nat.succ_pos 0) rfl
  exact ⟨hi,
    attack_index_invariant.1 (targetB .attacking 0 100 100 1)
      ClientMessage.attack 200 hi,
    attack_index_invariant.2.1 (targetB .attacking 0 100 100 1) 0 hi,
    attack_index_invariant.2.2.1 attackerA (targetB .attacking 0 100 100 1)
      1 0 hi,
    attack_index_invariant.2.2.2 (targetB .attacking 0 100 100 1) 0 0⟩

theorem tickAttack_of_not_attacking {p : ServerPlayer} (now : ℤ)
    (h : p.state.action ≠ PlayerAction.attacking) : tickAttack p now = p := by
  unfold tickAttack
  rw [if_neg h]

theorem tickBlock_of_not_blocking {p : ServerPlayer} (now : ℤ)
    (h : p.state.action ≠ PlayerAction.blocking) : tickBlock p now = p := by
  unfold tickBlock
  rw [if_neg h]

/-- C5: after every displacement — immediate movement on a `move`
message, the per-tick dodge displacement, and the knockback applied
during hit resolution — the player's planar distance from the arena
origin is at most `ARENA_RADIUS - 1 = 29`. -/
theorem arena_clamp :
    (∀ p : ServerPlayer, p.state.isDead = false →
      p.state.action ≠ PlayerAction.attacking →
      p.state.action ≠ PlayerAction.dodging →
      ¬(p.input.forward = 0 ∧ p.input.right = 0) →
      planarDist (processMovement p).state.x (processMovement p).state.z ≤
        ARENA_RADIUS - 1) ∧
    (∀ (p : ServerPlayer) (now : ℤ), p.state.isDead = false →
      p.state.action = PlayerAction.dodging →
      now - p.dodgeStartTime < DODGE_DURATION →
      planarDist (tickPlayer p now).state.x (tickPlayer p now).state.z ≤
        ARENA_RADIUS - 1) ∧
    (∀ (a : PlayerState) (t : ServerPlayer) (k : ℚ) (now : ℤ),
      registersHit a t now →
      planarDist (processTarget a t k now).1.state.x
        (processTarget a t k now).1.state.z ≤ ARENA_RADIUS - 1) ∧
    ARENA_RADIUS - (1:ℝ) = 29 := by
  refine ⟨?_, ?_, ?_, by norm_num [ARENA_RADIUS]⟩
  · intro p hdead h1 h2 h3
    unfold processMovement
    rw [if_neg (by simp [hdead])]
    dsimp only
    rw [if_neg h1, if_neg h2, if_pos (not_and_or.mp h3)]
    exact clampArena_dist _ _
  · intro p now hdead hact helt
    unfold tickPlayer
    rw [if_neg (by simp [hdead])]
    rw [tickAttack_of_not_attacking now (by simp [hact])]
    have hdg : tickDodge p now =
        { p with state := { p.state with
            x := (clampArena
              (p.state.x + p.dodgeDir.1 * DODGE_SPEED *
                ((1 - ((now - p.dodgeStartTime : ℤ) : ℚ) /
                    ((DODGE_DURATION : ℤ) : ℚ) *
                  (((now - p.dodgeStartTime : ℤ) : ℚ) /
                    ((DODGE_DURATION : ℤ) : ℚ)) : ℚ) : ℝ) *
                (dtTick : ℝ))
              (p.state.z + p.dodgeDir.2 * DODGE_SPEED *
                ((1 - ((now - p.dodgeStartTime : ℤ) : ℚ) /
                    ((DODGE_DURATION : ℤ) : ℚ) *
                  (((now - p.dodgeStartTime : ℤ) : ℚ) /
                    ((DODGE_DURATION : ℤ) : ℚ)) : ℚ) : ℝ) *
                (dtTick : ℝ))).1
            z := (clampArena
              (p.state.x + p.dodgeDir.1 * DODGE_SPEED *
                ((1 - ((now - p.dodgeStartTime : ℤ) : ℚ) /
                    ((DODGE_DURATION : ℤ) : ℚ) *
                  (((now - p.dodgeStartTime : ℤ) : ℚ) /
                    ((DODGE_DURATION : ℤ) : ℚ)) : ℚ) : ℝ) *
                (dtTick : ℝ))
              (p.state.z + p.dodgeDir.2 * DODGE_SPEED *
                ((1 - ((now - p.dodgeStartTime : ℤ) : ℚ) /
                    ((DODGE_DURATION : ℤ) : ℚ) *
                  (((now - p.dodgeStartTime : ℤ) : ℚ) /
                    ((DODGE_DURATION : ℤ) : ℚ)) : ℚ) : ℝ) *
                (dtTick : ℝ))).2 } } := by
      unfold tickDodge
      rw [if_pos hact, if_pos helt]
    rw [hdg]
    rw [tickBlock_of_not_blocking now
      (fun hx => PlayerAction.noConfusion (hact ▸ hx))]
    rw [(tickVertical_fields _).2.2.2.1, (tickVertical_fields _).2.2.2.2.1,
      (tickRegen_fields _ _).2.2.1, (tickRegen_fields _ _).2.2.2.1]
    exact clampArena_dist _ _
  · intro a t k now hhit
    unfold processTarget
    rw [if_pos hhit]
    unfold applyHit
    dsimp only
    split
    · exact clampArena_dist _ _
    · exact clampArena_dist _ _

/-- Witness for C5 at concrete inputs. -/
theorem arena_clamp_witness :
    (({ targetB .idle 0 100 100 0 with
        input := ⟨1, 0, 0, 1/30⟩ } : ServerPlayer).state.isDead = false ∧
      ¬(({ targetB .idle 0 100 100 0 with
        input := ⟨1, 0, 0, 1/30⟩ } : ServerPlayer).input.forward = 0 ∧
        ({ targetB .idle 0 100 100 0 with
          input := ⟨1, 0, 0, 1/30⟩ } : ServerPlayer).input.right = 0)) ∧
    planarDist
      (processMovement { targetB .idle 0 100 100 0 with
        input := ⟨1, 0, 0, 1/30⟩ }).state.x
      (processMovement { targetB .idle 0 100 100 0 with
        input := ⟨1, 0, 0, 1/30⟩ }).state.z ≤ ARENA_RADIUS - 1 ∧
    planarDist (tickPlayer (targetB .dodging 0 100 100 0) 0).state.x
      (tickPlayer (targetB .dodging 0 100 100 0) 0).state.z ≤
      ARENA_RADIUS - 1 ∧
    planarDist
      (processTarget attackerA (targetB .idle 0 100 100 0) 1 0).1.state.x
      (processTarget attackerA (targetB .idle 0 100 100 0) 1 0).1.state.z ≤
      ARENA_RADIUS - 1 :=
  ⟨⟨by decide, by decide⟩,
    arena_clamp.1 _ (by decide) (by decide) (by decide) (by decide),
    arena_clamp.2.1 (targetB .dodging 0 100 100 0) 0 (by decide) (by decide)
      (by decide),
    arena_clamp.2.2.1 attackerA (targetB .idle 0 100 100 0) 1 0
      (registersHit_targetB .idle 0 100 100 0 (by decide))⟩

/-- Number of `kill` broadcasts naming `tid` as the victim. -/
def killsFor (tid : String) (evs : List ServerEvent) : ℕ :=
  evs.countP (fun e => e.killTarget == some tid)

/-- A lethal registered hit broadcasts exactly one `kill` for the
target. -/
theorem processTarget_killsFor_self (a : PlayerState) (t : ServerPlayer)
    (k : ℚ) (now : ℤ) (hhit : registersHit a t now)
    (hlethal : t.state.health - ((appliedDamage a t k : ℤ) : ℚ) ≤ 0) :
    killsFor t.state.id (processTarget a t k now).2 = 1 := by
  unfold processTarget
  rw [if_pos hhit]
  unfold applyHit
  dsimp only
  rw [if_pos hlethal]
  simp [killsFor, ServerEvent.killTarget]

/-- No pass over another player ever broadcasts a `kill` naming `tid`. -/
theorem processTarget_killsFor_ne (a : PlayerState) (u : ServerPlayer)
    (k : ℚ) (now : ℤ) (tid : String) (hne : u.state.id ≠ tid) :
    killsFor tid (processTarget a u k now).2 = 0 := by
  unfold processTarget
  split_ifs with hhit
  · unfold applyHit
    dsimp only
    split
    · simp [killsFor, ServerEvent.killTarget, hne]
    · simp [killsFor, ServerEvent.killTarget]
  · simp [killsFor]

theorem killsFor_flatMap_zero (a : PlayerState) (k : ℚ) (now : ℤ)
    (tid : String) (us : List ServerPlayer)
    (h : ∀ u ∈ us, u.state.id ≠ tid) :
    killsFor tid (us.flatMap fun u => (processTarget a u k now).2) = 0 := by
  induction us with
  | nil => simp [killsFor]
  | cons u us ih =>
    rw [List.flatMap_cons]
    unfold killsFor
    rw [List.countP_append]
    have h1 := processTarget_killsFor_ne a u k now tid
      (h u (List.mem_cons_self u us))
    have h2 := ih (fun v hv => h v (List.mem_cons_of_mem u hv))
    unfold killsFor at h1 h2
    rw [h1, h2]

theorem checkAttackHits_killsFor (a : PlayerState) (t : ServerPlayer)
    (targets : List ServerPlayer) (k : ℚ) (now : ℤ)
    (hnd : (targets.map fun u => u.state.id).Nodup)
    (hmem : t ∈ targets) (hhit : registersHit a t now)
    (hlethal : t.state.health - ((appliedDamage a t k : ℤ) : ℚ) ≤ 0) :
    killsFor t.state.id (checkAttackHits a targets k now).2 = 1 := by
  unfold checkAttackHits
  dsimp only
  induction targets with
  | nil => cases hmem
  | cons u us ih =>
    rw [List.map_cons, List.nodup_cons] at hnd
    rw [List.flatMap_cons]
    unfold killsFor
    rw [List.countP_append]
    rcases List.mem_cons.mp hmem with heq | hmem2
    · subst heq
      have h1 := processTarget_killsFor_self a t k now hhit hlethal
      have h2 := killsFor_flatMap_zero a k now t.state.id us
        (fun v hv hveq => hnd.1 (hveq ▸ List.mem_map_of_mem
          (fun u => u.state.id) hv))
      unfold killsFor at h1 h2
      rw [h1, h2]
    · have hune : u.state.id ≠ t.state.id := fun heq => hnd.1
        (heq ▸ List.mem_map_of_mem (fun u => u.state.id) hmem2)
      have h1 := processTarget_killsFor_ne a u k now t.state.id hune
      have h2 := ih hnd.2 hmem2
      unfold killsFor at h1 h2
      rw [h1, h2]

/-- C6: a lethal hit on a living target broadcasts exactly one `kill`
for it during the whole `checkAttackHits` pass (given per-player unique
ids) and schedules exactly one respawn timer; a dead player can never be
hit again (so cannot die or schedule a second timer), and the respawn
resets `isDead` and clears the timer. -/
theorem death_single_kill (a : PlayerState) (t : ServerPlayer)
    (targets : List ServerPlayer) (k : ℚ) (now : ℤ)
    (hnd : (targets.map fun u => u.state.id).Nodup)
    (hmem : t ∈ targets) (hhit : registersHit a t now)
    (hlethal : t.state.health ≤ ((appliedDamage a t k : ℤ) : ℚ)) :
    killsFor t.state.id (checkAttackHits a targets k now).2 = 1 ∧
    (processTarget a t k now).1.state.isDead = true ∧
    (processTarget a t k now).1.respawnTimer = some (now + RESPAWN_TIME) ∧
    (∀ (u : ServerPlayer) (now2 : ℤ), u.state.isDead = true →
      ¬ registersHit a u now2) ∧
    (∀ (p : ServerPlayer) (sx sz : ℝ),
      (respawnPlayer p sx sz).1.state.isDead = false ∧
      (respawnPlayer p sx sz).1.respawnTimer = none) := by
  have hle : t.state.health - ((appliedDamage a t k : ℤ) : ℚ) ≤ 0 :=
    sub_nonpos.mpr hlethal
  have hdeath := processTarget_death a t k now hhit hle
  refine ⟨checkAttackHits_killsFor a t targets k now hnd hmem hhit hle,
    hdeath.1, hdeath.2.2.2.1, ?_, fun p sx sz => ⟨rfl, rfl⟩⟩
  intro u now2 hd hr
  exact hr.1 (Or.inr hd)

/-- Witness for C6 at a concrete input: a room with the attacker's
single living target at 5 health taking 22 damage. -/
theorem death_single_kill_witness :
    (([targetB .idle 0 5 100 0].map fun u => u.state.id).Nodup ∧
      targetB .idle 0 5 100 0 ∈ [targetB .idle 0 5 100 0] ∧
      registersHit attackerA (targetB .idle 0 5 100 0) 0 ∧
      (targetB .idle 0 5 100 0).state.health ≤
        ((appliedDamage attackerA (targetB .idle 0 5 100 0) 1 : ℤ) : ℚ)) ∧
    killsFor (targetB .idle 0 5 100 0).state.id
      (checkAttackHits attackerA [targetB .idle 0 5 100 0] 1 0).2 = 1 ∧
    (processTarget attackerA (targetB .idle 0 5 100 0) 1 0).1.respawnTimer
      = some (0 + RESPAWN_TIME) := by
  have hnd : (([targetB .idle 0 5 100 0].map fun u => u.state.id)).Nodup :=
    List.nodup_singleton _
  have hmem : targetB .idle 0 5 100 0 ∈ [targetB .idle 0 5 100 0] :=
    List.mem_singleton.mpr rfl
  have hhit := registersHit_targetB .idle 0 5 100 0 (by decide)
  have hlethal : (targetB .idle 0 5 100 0).state.health ≤
      ((appliedDamage attackerA (targetB .idle 0 5 100 0) 1 : ℤ) : ℚ) := by
    rw [appliedDamage_of_not_block
      (not_blockCondition_targetB .idle 0 5 100 0 (by decide))]
    norm_num [ATTACK_DAMAGE, targetB]
  exact ⟨⟨hnd, hmem, hhit, hlethal⟩,
    (death_single_kill attackerA (targetB .idle 0 5 100 0)
      [targetB .idle 0 5 100 0] 1 0 hnd hmem hhit hlethal).1,
    (death_single_kill attackerA (targetB .idle 0 5 100 0)
      [targetB .idle 0 5 100 0] 1 0 hnd hmem hhit hlethal).2.2.1⟩

end
